import Mathlib

/-!
Shallow embedding of the CHIP-8 emulator core (src/src/emulator.cc, final
revision) together with proofs about the claims of its specification.

Machine integers are modelled as Nat with explicit reductions where the C++
types truncate: stores into 8-bit register/memory cells reduce mod 256,
stores into the 16-bit index register and stack cells reduce mod 65536.
Arrays (memory, registers, stack, framebuffer) are modelled as total
functions so that out-of-bounds writes of the C++ code stay observable.
External collaborators (keyboard, random source, window) are passed as an
explicit environment; the tone device trigger is returned as a Bool.
-/

namespace Chip8

def kChip8MemorySize : Nat := 4096
def kChip8ProgramStartAddress : Nat := 0x200
def kChip8ScreenWidth : Nat := 64
def kChip8ScreenHeight : Nat := 32

/-- Decoded instruction, mirroring struct Emulator::Instruction. -/
structure Instruction where
  raw : Nat
  first_nibble : Nat
  second_nibble : Nat
  third_nibble : Nat
  fourth_nibble : Nat
deriving Repr, DecidableEq

/-- The mutable machine state of class Emulator. -/
structure EmuState where
  memory : Nat → Nat
  variable_registers : Nat → Nat
  stack : Nat → Nat
  stack_pointer : Nat
  program_counter : Nat
  index_register : Nat
  screen : Nat → Nat → Nat
  delay_timer : Nat
  sound_timer : Nat

/-- External collaborators consulted by Execute: the pseudo-random source,
the keyboard, and the blocking key wait (none models a cancelled wait). -/
structure Env where
  randVal : Nat
  isKeyPressed : Nat → Bool
  waitKey : Option Nat

/-- Store into an 8-bit register cell (assignment to uint8 truncates). -/
def setReg (st : EmuState) (i v : Nat) : EmuState :=
  { st with variable_registers := fun j => if j = i then v % 256 else st.variable_registers j }

/-- Store into an 8-bit memory cell. -/
def setMem (st : EmuState) (a v : Nat) : EmuState :=
  { st with memory := fun b => if b = a then v % 256 else st.memory b }

/-- Emulator::Fetch: reads the two bytes at the program counter (post
incrementing it twice) and returns them; the optional is always populated. -/
def Fetch (st : EmuState) : EmuState × Option (Nat × Nat) :=
  ({ st with program_counter := st.program_counter + 2 },
   some (st.memory st.program_counter, st.memory (st.program_counter + 1)))

/-- Emulator::Decode: pure decomposition of a big-endian byte pair. -/
def Decode (hi lo : Nat) : Instruction :=
  { raw := (hi <<< 8) ||| lo
    first_nibble := hi >>> 4
    second_nibble := hi &&& 0x0F
    third_nibble := lo >>> 4
    fourth_nibble := lo &&& 0x0F }

/-- Emulator::ClearScreen: zero every cell of the 32x64 framebuffer. -/
def ClearScreen (st : EmuState) : EmuState :=
  { st with screen := fun y x =>
      if y < kChip8ScreenHeight ∧ x < kChip8ScreenWidth then 0 else st.screen y x }

/-- Emulator::Jump. -/
def Jump (st : EmuState) (address : Nat) : EmuState :=
  { st with program_counter := address }

/-- Emulator::SetRegisterVx. -/
def SetRegisterVx (st : EmuState) (x value : Nat) : EmuState :=
  setReg st x value

/-- Emulator::AddToRegisterVx (8-bit wraparound via the uint8 store). -/
def AddToRegisterVx (st : EmuState) (x value : Nat) : EmuState :=
  setReg st x (st.variable_registers x + value)

/-- Emulator::SetIndexRegister (uint16 member). -/
def SetIndexRegister (st : EmuState) (value : Nat) : EmuState :=
  { st with index_register := value % 65536 }

/-- Emulator::CallSubroutine: pre-increment the stack pointer, store the
program counter at the new slot (no bounds check), then jump. -/
def CallSubroutine (st : EmuState) (address : Nat) : EmuState :=
  let sp := (st.stack_pointer + 1) % 256
  { st with
    stack_pointer := sp
    stack := fun j => if j = sp then st.program_counter % 65536 else st.stack j
    program_counter := address }

/-- Emulator::ReturnFromSubroutine: read the slot at the stack pointer, then
post-decrement it (uint8, so 0 wraps to 255; no bounds check). -/
def ReturnFromSubroutine (st : EmuState) : EmuState :=
  { st with
    program_counter := st.stack st.stack_pointer
    stack_pointer := (st.stack_pointer + 255) % 256 }

/-- Emulator::SkipInstructionIfVxEqual. -/
def SkipInstructionIfVxEqual (st : EmuState) (x value : Nat) : EmuState :=
  if st.variable_registers x = value
  then { st with program_counter := st.program_counter + 2 } else st

/-- Emulator::SkipInstructionIfVxNotEqual. -/
def SkipInstructionIfVxNotEqual (st : EmuState) (x value : Nat) : EmuState :=
  if st.variable_registers x ≠ value
  then { st with program_counter := st.program_counter + 2 } else st

/-- Emulator::SkipInstructionIfVxEqualVy. -/
def SkipInstructionIfVxEqualVy (st : EmuState) (x y : Nat) : EmuState :=
  if st.variable_registers x = st.variable_registers y
  then { st with program_counter := st.program_counter + 2 } else st

/-- Emulator::SkipInstructionIfVxNotEqualVy. -/
def SkipInstructionIfVxNotEqualVy (st : EmuState) (x y : Nat) : EmuState :=
  if st.variable_registers x ≠ st.variable_registers y
  then { st with program_counter := st.program_counter + 2 } else st

/-- Emulator::SkipInstructionIfPressed (keyboard query from the env). -/
def SkipInstructionIfPressed (env : Env) (st : EmuState) (x : Nat) : EmuState :=
  if env.isKeyPressed (st.variable_registers x)
  then { st with program_counter := st.program_counter + 2 } else st

/-- Emulator::SkipInstructionIfNotPressed. -/
def SkipInstructionIfNotPressed (env : Env) (st : EmuState) (x : Nat) : EmuState :=
  if env.isKeyPressed (st.variable_registers x) then st
  else { st with program_counter := st.program_counter + 2 }

/-- Emulator::SetVy2Vx. -/
def SetVy2Vx (st : EmuState) (x y : Nat) : EmuState :=
  setReg st x (st.variable_registers y)

/-- Emulator::VxBinaryOrVy. -/
def VxBinaryOrVy (st : EmuState) (x y : Nat) : EmuState :=
  setReg st x (st.variable_registers x ||| st.variable_registers y)

/-- Emulator::VxBinaryAndVy. -/
def VxBinaryAndVy (st : EmuState) (x y : Nat) : EmuState :=
  setReg st x (st.variable_registers x &&& st.variable_registers y)

/-- Emulator::VxBinaryXorVy. -/
def VxBinaryXorVy (st : EmuState) (x y : Nat) : EmuState :=
  setReg st x (st.variable_registers x ^^^ st.variable_registers y)

/-- Emulator::AddVy2Vx: the int sum is computed first, the carry flag is
written to VF, and only then is the (truncated) sum stored into Vx. -/
def AddVy2Vx (st : EmuState) (x y : Nat) : EmuState :=
  let result := st.variable_registers x + st.variable_registers y
  let st1 := setReg st 0xF (if 255 < result then 1 else 0)
  setReg st1 x result

/-- Emulator::VxSubtractVy: VF is written from the strict comparison first,
then Vx receives Vx - Vy; both operand reads happen after the VF write,
and uint8 subtraction of values below 256 is (a + 256 - b) % 256 with the
reduction performed by the uint8 store. -/
def VxSubtractVy (st : EmuState) (x y : Nat) : EmuState :=
  let st1 := setReg st 0xF
    (if st.variable_registers y < st.variable_registers x then 1 else 0)
  setReg st1 x (st1.variable_registers x + 256 - st1.variable_registers y)

/-- Emulator::VySubtractVx: VF from the strict comparison Vy > Vx, then
Vx receives Vy - Vx (operand reads after the VF write). -/
def VySubtractVx (st : EmuState) (x y : Nat) : EmuState :=
  let st1 := setReg st 0xF
    (if st.variable_registers x < st.variable_registers y then 1 else 0)
  setReg st1 x (st1.variable_registers y + 256 - st1.variable_registers x)

/-- Emulator::ShiftVxRight: VF from mask 0x1, then Vx shifted (the shifted
operand is read after the VF write). -/
def ShiftVxRight (st : EmuState) (x : Nat) : EmuState :=
  let st1 := setReg st 0xF (if 0 < st.variable_registers x &&& 0x1 then 1 else 0)
  setReg st1 x (st1.variable_registers x >>> 1)

/-- Emulator::ShiftVxLeft: VF from mask 0x8 (bit 3, exactly as the source
has it), then Vx shifted left with uint8 truncation on the store. -/
def ShiftVxLeft (st : EmuState) (x : Nat) : EmuState :=
  let st1 := setReg st 0xF (if 0 < st.variable_registers x &&& 0x8 then 1 else 0)
  setReg st1 x (st1.variable_registers x <<< 1)

/-- Emulator::JumpWithOffset: pc = address, then pc += V0. -/
def JumpWithOffset (st : EmuState) (address : Nat) : EmuState :=
  { st with program_counter := address + st.variable_registers 0x0 }

/-- Emulator::VxBinaryAndRandom: rand() % 8 masked with the immediate. -/
def VxBinaryAndRandom (env : Env) (st : EmuState) (x value : Nat) : EmuState :=
  setReg st x ((env.randVal % 8) &&& value)

/-- Emulator::AddVx2IndexRegister (uint16 member wraps). -/
def AddVx2IndexRegister (st : EmuState) (x : Nat) : EmuState :=
  { st with index_register := (st.index_register + st.variable_registers x) % 65536 }

/-- Emulator::SetIndexRegisterForFont: I = Vx. -/
def SetIndexRegisterForFont (st : EmuState) (x : Nat) : EmuState :=
  { st with index_register := st.variable_registers x % 65536 }

/-- Emulator::HexInVxToDecimal: BCD split into memory at I, I+1, I+2. -/
def HexInVxToDecimal (st : EmuState) (x : Nat) : EmuState :=
  let hex_number := st.variable_registers x
  let st1 := setMem st st.index_register (hex_number / 100)
  let st2 := setMem st1 (st.index_register + 1) ((hex_number / 10) % 10)
  setMem st2 (st.index_register + 2) ((hex_number % 100) % 10)

/-- Loop body of Emulator::StoreRegistersInMemory over i = 0..x. -/
def storeRegsLoop (idx : Nat) (regs : Nat → Nat) : List Nat → (Nat → Nat) → (Nat → Nat)
  | [], mem => mem
  | i :: rest, mem =>
    storeRegsLoop idx regs rest (fun a => if a = idx + i then regs i % 256 else mem a)

/-- Emulator::StoreRegistersInMemory. -/
def StoreRegistersInMemory (st : EmuState) (x : Nat) : EmuState :=
  { st with memory :=
      storeRegsLoop st.index_register st.variable_registers (List.range (x + 1)) st.memory }

/-- Loop body of Emulator::LoadRegistersFromMemory over i = 0..x. -/
def loadRegsLoop (idx : Nat) (mem : Nat → Nat) : List Nat → (Nat → Nat) → (Nat → Nat)
  | [], regs => regs
  | i :: rest, regs =>
    loadRegsLoop idx mem rest (fun j => if j = i then mem (idx + i) % 256 else regs j)

/-- Emulator::LoadRegistersFromMemory. -/
def LoadRegistersFromMemory (st : EmuState) (x : Nat) : EmuState :=
  { st with variable_registers :=
      loadRegsLoop st.index_register st.memory (List.range (x + 1)) st.variable_registers }

/-- Emulator::WaitForKeyPress: a cancelled wait leaves the state unchanged. -/
def WaitForKeyPress (env : Env) (st : EmuState) (x : Nat) : EmuState :=
  match env.waitKey with
  | none => st
  | some key => setReg st x key

/-- Emulator::SetDelayTimer. -/
def SetDelayTimer (st : EmuState) (x : Nat) : EmuState :=
  { st with delay_timer := st.variable_registers x % 256 }

/-- Emulator::SetSoundTimer. -/
def SetSoundTimer (st : EmuState) (x : Nat) : EmuState :=
  { st with sound_timer := st.variable_registers x % 256 }

/-- Emulator::SetDelayTimer2Vx. -/
def SetDelayTimer2Vx (st : EmuState) (x : Nat) : EmuState :=
  setReg st x st.delay_timer

/-- Emulator::OnTimersTick: decrement each nonzero timer, then report
whether the speaker Play trigger fires (checked after the decrement). -/
def OnTimersTick (st : EmuState) : EmuState × Bool :=
  let d := if 0 < st.delay_timer then st.delay_timer - 1 else st.delay_timer
  let s := if 0 < st.sound_timer then st.sound_timer - 1 else st.sound_timer
  ({ st with delay_timer := d, sound_timer := s }, decide (0 < s))

/-- Update a single framebuffer cell. -/
def setCell (fb : Nat → Nat → Nat) (r c v : Nat) : Nat → Nat → Nat :=
  fun r2 c2 => if r2 = r ∧ c2 = c then v else fb r2 c2

/-- Inner column loop of Emulator::Display for a single sprite row: walk the
8 sprite bits, breaking at the right screen edge, XOR-flipping set bits and
recording collisions in the threaded VF value. -/
def drawRowBits (ty sx pixel : Nat) : List Nat → (Nat → Nat → Nat) → Nat → ((Nat → Nat → Nat) × Nat)
  | [], fb, vf => (fb, vf)
  | x :: rest, fb, vf =>
    if kChip8ScreenWidth ≤ sx + x then (fb, vf)
    else if pixel &&& (0x80 >>> x) ≠ 0 then
      drawRowBits ty sx pixel rest
        (setCell fb ty (sx + x) (fb ty (sx + x) ^^^ 1))
        (if fb ty (sx + x) ≠ 0 then 1 else vf)
    else drawRowBits ty sx pixel rest fb vf

/-- Outer row loop of Emulator::Display: walk the n sprite rows, breaking at
the bottom screen edge, reading each row byte from memory at I + y. -/
def drawSpriteRows (sy sx idx : Nat) (mem : Nat → Nat) : List Nat → (Nat → Nat → Nat) → Nat → ((Nat → Nat → Nat) × Nat)
  | [], fb, vf => (fb, vf)
  | y :: rest, fb, vf =>
    if kChip8ScreenHeight ≤ sy + y then (fb, vf)
    else
      let p := drawRowBits (sy + y) sx (mem (idx + y)) (List.range 8) fb vf
      drawSpriteRows sy sx idx mem rest p.1 p.2

/-- Emulator::Display: anchor from Vx mod 64 and Vy mod 32 (read before the
VF reset), VF cleared, then the clipped XOR sprite plot. -/
def Display (st : EmuState) (x y n : Nat) : EmuState :=
  let start_from_y := st.variable_registers y % kChip8ScreenHeight
  let start_from_x := st.variable_registers x % kChip8ScreenWidth
  let st1 := setReg st 0xF 0
  let p := drawSpriteRows start_from_y start_from_x st.index_register st.memory
    (List.range n) st1.screen 0
  { setReg st1 0xF p.2 with screen := p.1 }

/-- Typed failure of Execute (the C++ code throws std::invalid_argument). -/
inductive ExecError where
  | unknownOpcode
deriving Repr, DecidableEq

/-- Emulator::Execute: two-level dispatch on the decoded nibbles, exactly
mirroring the switch structure of the source (including the silent fall
through of the 0x0 family when the third nibble is not 0xE). -/
def Execute (env : Env) (st : EmuState) (instr : Instruction) : Except ExecError EmuState :=
  if instr.first_nibble = 0x0 then
    if instr.third_nibble = 0xE then
      if instr.fourth_nibble = 0x0 then .ok (ClearScreen st)
      else if instr.fourth_nibble = 0xE then .ok (ReturnFromSubroutine st)
      else .error .unknownOpcode
    else .ok st
  else if instr.first_nibble = 0x1 then .ok (Jump st (instr.raw &&& 0x0FFF))
  else if instr.first_nibble = 0x2 then .ok (CallSubroutine st (instr.raw &&& 0x0FFF))
  else if instr.first_nibble = 0x3 then
    .ok (SkipInstructionIfVxEqual st instr.second_nibble (instr.raw &&& 0x00FF))
  else if instr.first_nibble = 0x4 then
    .ok (SkipInstructionIfVxNotEqual st instr.second_nibble (instr.raw &&& 0x00FF))
  else if instr.first_nibble = 0x5 then
    .ok (SkipInstructionIfVxEqualVy st instr.second_nibble instr.third_nibble)
  else if instr.first_nibble = 0x6 then
    .ok (SetRegisterVx st instr.second_nibble (instr.raw &&& 0x00FF))
  else if instr.first_nibble = 0x7 then
    .ok (AddToRegisterVx st instr.second_nibble (instr.raw &&& 0x00FF))
  else if instr.first_nibble = 0x8 then
    if instr.fourth_nibble = 0x0 then .ok (SetVy2Vx st instr.second_nibble instr.third_nibble)
    else if instr.fourth_nibble = 0x1 then .ok (VxBinaryOrVy st instr.second_nibble instr.third_nibble)
    else if instr.fourth_nibble = 0x2 then .ok (VxBinaryAndVy st instr.second_nibble instr.third_nibble)
    else if instr.fourth_nibble = 0x3 then .ok (VxBinaryXorVy st instr.second_nibble instr.third_nibble)
    else if instr.fourth_nibble = 0x4 then .ok (AddVy2Vx st instr.second_nibble instr.third_nibble)
    else if instr.fourth_nibble = 0x5 then .ok (VxSubtractVy st instr.second_nibble instr.third_nibble)
    else if instr.fourth_nibble = 0x6 then .ok (ShiftVxRight st instr.second_nibble)
    else if instr.fourth_nibble = 0x7 then .ok (VySubtractVx st instr.second_nibble instr.third_nibble)
    else if instr.fourth_nibble = 0xE then .ok (ShiftVxLeft st instr.second_nibble)
    else .error .unknownOpcode
  else if instr.first_nibble = 0x9 then
    .ok (SkipInstructionIfVxNotEqualVy st instr.second_nibble instr.third_nibble)
  else if instr.first_nibble = 0xA then .ok (SetIndexRegister st (instr.raw &&& 0x0FFF))
  else if instr.first_nibble = 0xB then .ok (JumpWithOffset st (instr.raw &&& 0x0FFF))
  else if instr.first_nibble = 0xC then
    .ok (VxBinaryAndRandom env st instr.second_nibble (instr.raw &&& 0x00FF))
  else if instr.first_nibble = 0xD then
    .ok (Display st instr.second_nibble instr.third_nibble instr.fourth_nibble)
  else if instr.first_nibble = 0xE then
    if instr.third_nibble = 0x9 ∧ instr.fourth_nibble = 0xE then
      .ok (SkipInstructionIfPressed env st instr.second_nibble)
    else if instr.third_nibble = 0xA ∧ instr.fourth_nibble = 0x1 then
      .ok (SkipInstructionIfNotPressed env st instr.second_nibble)
    else .error .unknownOpcode
  else if instr.first_nibble = 0xF then
    if instr.third_nibble = 0x1 ∧ instr.fourth_nibble = 0xE then
      .ok (AddVx2IndexRegister st instr.second_nibble)
    else if instr.third_nibble = 0x0 ∧ instr.fourth_nibble = 0xA then
      .ok (WaitForKeyPress env st instr.second_nibble)
    else if instr.third_nibble = 0x2 ∧ instr.fourth_nibble = 0x9 then
      .ok (SetIndexRegisterForFont st instr.second_nibble)
    else if instr.third_nibble = 0x3 ∧ instr.fourth_nibble = 0x3 then
      .ok (HexInVxToDecimal st instr.second_nibble)
    else if instr.third_nibble = 0x5 ∧ instr.fourth_nibble = 0x5 then
      .ok (StoreRegistersInMemory st instr.second_nibble)
    else if instr.third_nibble = 0x6 ∧ instr.fourth_nibble = 0x5 then
      .ok (LoadRegistersFromMemory st instr.second_nibble)
    else if instr.third_nibble = 0x0 ∧ instr.fourth_nibble = 0x7 then
      .ok (SetDelayTimer2Vx st instr.second_nibble)
    else if instr.third_nibble = 0x1 ∧ instr.fourth_nibble = 0x5 then
      .ok (SetDelayTimer st instr.second_nibble)
    else if instr.third_nibble = 0x1 ∧ instr.fourth_nibble = 0x8 then
      .ok (SetSoundTimer st instr.second_nibble)
    else .error .unknownOpcode
  else .error .unknownOpcode

/-- Byte-wise copy of a ROM image into memory starting at an address,
mirroring the ifstream read into memory_.data() + start. -/
def writeBytes (mem : Nat → Nat) (a : Nat) : List Nat → (Nat → Nat)
  | [] => mem
  | b :: bs => writeBytes (fun c => if c = a then b % 256 else mem c) (a + 1) bs

/-- Typed failure of construction/loading. -/
inductive LoadError where
  | romTooLarge
deriving Repr, DecidableEq

/-- Emulator::LoadProgramText (size path): the source rejects the ROM only
when its size exceeds kChip8MemorySize (4096), then copies the bytes into
memory starting at kChip8ProgramStartAddress (0x200). -/
def LoadProgramText (rom : List Nat) (mem : Nat → Nat) : Except LoadError (Nat → Nat) :=
  if kChip8MemorySize < rom.length then .error .romTooLarge
  else .ok (writeBytes mem kChip8ProgramStartAddress rom)

/-- Success test for Execute results. -/
def execOk (r : Except ExecError EmuState) : Bool :=
  match r with
  | .ok _ => true
  | .error _ => false

/-- The all-zero machine state (post-construction with an empty ROM, font
region ignored), program counter at the program start address. -/
def zeroState : EmuState :=
  { memory := fun _ => 0
    variable_registers := fun _ => 0
    stack := fun _ => 0
    stack_pointer := 0
    program_counter := kChip8ProgramStartAddress
    index_register := 0
    screen := fun _ _ => 0
    delay_timer := 0
    sound_timer := 0 }

/-- A fixed environment for concrete evaluations. -/
def env0 : Env :=
  { randVal := 0, isKeyPressed := fun _ => false, waitKey := none }

/-- State sitting at a full call stack (slots 1..15 in use under the
pre-increment convention), about to execute a 2nnn call. -/
def stFullStack : EmuState := { zeroState with stack_pointer := 15, program_counter := 0x456 }

/-- State with every variable register equal to 5. -/
def stAllFive : EmuState := { zeroState with variable_registers := fun _ => 5 }

/-- State with V0 = 0x80 (high bit set, bit 3 clear). -/
def stV0HighBit : EmuState :=
  { zeroState with variable_registers := fun j => if j = 0 then 0x80 else 0 }

/-- State with V0 = 0x08 (bit 3 set, high bit clear). -/
def stV0Bit3 : EmuState :=
  { zeroState with variable_registers := fun j => if j = 0 then 0x08 else 0 }

/-- State whose sound timer is exactly 1. -/
def stSoundOne : EmuState := { zeroState with sound_timer := 1 }

/-- Nibble patterns on which Execute raises the unknown-opcode error: the
00Ek tail with k not 0 or 0xE, the 8xyk tail with k outside 0..7 and 0xE,
the Ex and Fx families outside their defined low-byte pairs, and a first
nibble above 0xF (unreachable from Decode). Patterns 0nnn with third
nibble not 0xE, and 5xyk / 9xyk for every k, are NOT failures. -/
def UnknownPattern (i : Instruction) : Prop :=
  (i.first_nibble = 0x0 ∧ i.third_nibble = 0xE
      ∧ i.fourth_nibble ≠ 0x0 ∧ i.fourth_nibble ≠ 0xE)
  ∨ (i.first_nibble = 0x8 ∧ i.fourth_nibble ≠ 0x0 ∧ i.fourth_nibble ≠ 0x1
      ∧ i.fourth_nibble ≠ 0x2 ∧ i.fourth_nibble ≠ 0x3 ∧ i.fourth_nibble ≠ 0x4
      ∧ i.fourth_nibble ≠ 0x5 ∧ i.fourth_nibble ≠ 0x6 ∧ i.fourth_nibble ≠ 0x7
      ∧ i.fourth_nibble ≠ 0xE)
  ∨ (i.first_nibble = 0xE
      ∧ ¬ (i.third_nibble = 0x9 ∧ i.fourth_nibble = 0xE)
      ∧ ¬ (i.third_nibble = 0xA ∧ i.fourth_nibble = 0x1))
  ∨ (i.first_nibble = 0xF
      ∧ ¬ (i.third_nibble = 0x1 ∧ i.fourth_nibble = 0xE)
      ∧ ¬ (i.third_nibble = 0x0 ∧ i.fourth_nibble = 0xA)
      ∧ ¬ (i.third_nibble = 0x2 ∧ i.fourth_nibble = 0x9)
      ∧ ¬ (i.third_nibble = 0x3 ∧ i.fourth_nibble = 0x3)
      ∧ ¬ (i.third_nibble = 0x5 ∧ i.fourth_nibble = 0x5)
      ∧ ¬ (i.third_nibble = 0x6 ∧ i.fourth_nibble = 0x5)
      ∧ ¬ (i.third_nibble = 0x0 ∧ i.fourth_nibble = 0x7)
      ∧ ¬ (i.third_nibble = 0x1 ∧ i.fourth_nibble = 0x5)
      ∧ ¬ (i.third_nibble = 0x1 ∧ i.fourth_nibble = 0x8))
  ∨ (i.first_nibble ≠ 0x0 ∧ i.first_nibble ≠ 0x1 ∧ i.first_nibble ≠ 0x2
      ∧ i.first_nibble ≠ 0x3 ∧ i.first_nibble ≠ 0x4 ∧ i.first_nibble ≠ 0x5
      ∧ i.first_nibble ≠ 0x6 ∧ i.first_nibble ≠ 0x7 ∧ i.first_nibble ≠ 0x8
      ∧ i.first_nibble ≠ 0x9 ∧ i.first_nibble ≠ 0xA ∧ i.first_nibble ≠ 0xB
      ∧ i.first_nibble ≠ 0xC ∧ i.first_nibble ≠ 0xD ∧ i.first_nibble ≠ 0xE
      ∧ i.first_nibble ≠ 0xF)

/-- Whether the inner column loop, walking the given bit indices with the
clipping break, XOR-flips column c of the target row. -/
def colHit (sx pixel c : Nat) : List Nat → Bool
  | [] => false
  | x :: rest =>
    if kChip8ScreenWidth ≤ sx + x then false
    else ((decide (c = sx + x) && decide (pixel &&& (0x80 >>> x) ≠ 0)) || colHit sx pixel c rest)

/-- Whether the inner column loop records a collision on framebuffer fb. -/
def rowCollide (sx pixel ty : Nat) (fb : Nat → Nat → Nat) : List Nat → Bool
  | [] => false
  | x :: rest =>
    if kChip8ScreenWidth ≤ sx + x then false
    else ((decide (pixel &&& (0x80 >>> x) ≠ 0) && decide (fb ty (sx + x) ≠ 0))
      || rowCollide sx pixel ty fb rest)

/-- Whether the full row loop of a sprite draw XOR-flips the cell (r, c). -/
def cellHit (sy sx idx : Nat) (mem : Nat → Nat) (r c : Nat) : List Nat → Bool
  | [] => false
  | y :: rest =>
    if kChip8ScreenHeight ≤ sy + y then false
    else ((decide (r = sy + y) && colHit sx (mem (idx + y)) c (List.range 8))
      || cellHit sy sx idx mem r c rest)

/-- Whether the full row loop of a sprite draw records a collision on fb. -/
def spriteCollide (sy sx idx : Nat) (mem : Nat → Nat) (fb : Nat → Nat → Nat) : List Nat → Bool
  | [] => false
  | y :: rest =>
    if kChip8ScreenHeight ≤ sy + y then false
    else (rowCollide sx (mem (idx + y)) (sy + y) fb (List.range 8)
      || spriteCollide sy sx idx mem fb rest)

/-- The all-zero state with a single one-row sprite (byte 0x80) at address
0, the index register pointing at it. -/
def stSprite : EmuState := { zeroState with memory := fun a => if a = 0 then 0x80 else 0 }

end Chip8

namespace Chip8

lemma setReg_regs (st : EmuState) (i v j : Nat) :
    (setReg st i v).variable_registers j
      = if j = i then v % 256 else st.variable_registers j := rfl

lemma setReg_screen (st : EmuState) (i v : Nat) : (setReg st i v).screen = st.screen := rfl

lemma setReg_memory (st : EmuState) (i v : Nat) : (setReg st i v).memory = st.memory := rfl

lemma setReg_index (st : EmuState) (i v : Nat) :
    (setReg st i v).index_register = st.index_register := rfl

/-- Claim C1: Emulator::Fetch never reports the end-of-program condition:
for every machine state it returns the two bytes at the program counter,
so the empty optional the run loop tests for is never produced and the
claimed end-of-program stop can never fire. -/
theorem C1_fetch_always_returns_bytes (st : EmuState) :
    (Fetch st).2 = some (st.memory st.program_counter, st.memory (st.program_counter + 1)) :=
  rfl

/-- Claim C4: a 2nnn call on a full stack is not detected: the stack pointer
is pushed to 16 and the return address is written to slot 16, outside the
16-slot stack array, with no error; likewise 00EE on an empty stack wraps
the uint8 stack pointer from 0 to 255 instead of failing. -/
theorem C4_no_stack_bounds_check :
    (CallSubroutine stFullStack 0x300).stack_pointer = 16
      ∧ (CallSubroutine stFullStack 0x300).stack 16 = 0x456
      ∧ (CallSubroutine stFullStack 0x300).program_counter = 0x300
      ∧ (ReturnFromSubroutine zeroState).stack_pointer = 255 := by
  refine ⟨rfl, by decide, rfl, by decide⟩

/-- Claim C7 counterexample: with Vx = Vy = 5 the minuend is greater or
equal to the subtrahend, yet 8xy5 sets VF = 0, because the source compares
with strict greater-than. -/
theorem C7_vf_zero_at_equal_registers :
    stAllFive.variable_registers 1 ≤ stAllFive.variable_registers 0
      ∧ (VxSubtractVy stAllFive 0 1).variable_registers 0xF = 0
      ∧ (VySubtractVx stAllFive 0 1).variable_registers 0xF = 0 := by
  refine ⟨by decide, by decide, by decide⟩

/-- Claim C7 as amended: for coordinate registers other than VF, 8xy5 sets
VF = 1 iff Vx is strictly greater than Vy (so VF = 0 when they are equal),
and 8xy7 sets VF = 1 iff Vy is strictly greater than Vx; the stored
difference is the wrapping 8-bit subtraction. -/
theorem C7_subtract_flags_strict (st : EmuState) (x y : Nat)
    (hx : x ≠ 0xF) (hy : y ≠ 0xF) :
    ((VxSubtractVy st x y).variable_registers 0xF
        = if st.variable_registers y < st.variable_registers x then 1 else 0)
      ∧ ((VxSubtractVy st x y).variable_registers x
        = (st.variable_registers x + 256 - st.variable_registers y) % 256)
      ∧ ((VySubtractVx st x y).variable_registers 0xF
        = if st.variable_registers x < st.variable_registers y then 1 else 0)
      ∧ ((VySubtractVx st x y).variable_registers x
        = (st.variable_registers y + 256 - st.variable_registers x) % 256) := by
  have hx15 : ¬ ((0xF : Nat) = x) := fun h => hx h.symm
  refine ⟨?_, ?_, ?_, ?_⟩ <;>
    simp [VxSubtractVy, VySubtractVx, setReg_regs, hx15, hx, hy] <;>
    split_ifs <;> omega

/-- Witness for C7_subtract_flags_strict at registers 0 and 1 of the
all-fives state. -/
theorem C7_subtract_flags_strict_witness :
    ((VxSubtractVy stAllFive 0 1).variable_registers 0xF
        = if stAllFive.variable_registers 1 < stAllFive.variable_registers 0 then 1 else 0)
      ∧ ((VxSubtractVy stAllFive 0 1).variable_registers 0
        = (stAllFive.variable_registers 0 + 256 - stAllFive.variable_registers 1) % 256)
      ∧ ((VySubtractVx stAllFive 0 1).variable_registers 0xF
        = if stAllFive.variable_registers 0 < stAllFive.variable_registers 1 then 1 else 0)
      ∧ ((VySubtractVx stAllFive 0 1).variable_registers 0
        = (stAllFive.variable_registers 1 + 256 - stAllFive.variable_registers 0) % 256) :=
  C7_subtract_flags_strict stAllFive 0 1 (by decide) (by decide)

/-- Claim C8: ShiftVxLeft tests mask 0x8 (bit 3), not the high bit 0x80,
so with Vx = 0x80 it sets VF = 0 where the spec requires VF = 1 (the shift
itself does wrap to (Vx << 1) mod 256), and with Vx = 0x08 it sets VF = 1
where the spec requires VF = 0. -/
theorem C8_shiftvxleft_uses_bit3 :
    (ShiftVxLeft stV0HighBit 0).variable_registers 0xF = 0
      ∧ (ShiftVxLeft stV0HighBit 0).variable_registers 0 = 0
      ∧ (ShiftVxLeft stV0Bit3 0).variable_registers 0xF = 1
      ∧ (ShiftVxLeft stV0Bit3 0).variable_registers 0 = 0x10 := by
  refine ⟨by decide, by decide, by decide, by decide⟩

/-- Claim C9 counterexample: on a tick with sound timer = 1 (nonzero), the
timer is decremented but the tone device does not fire, because the source
checks the timer again only after the decrement. -/
theorem C9_no_play_at_sound_one :
    stSoundOne.sound_timer = 1
      ∧ (OnTimersTick stSoundOne).1.sound_timer = 0
      ∧ (OnTimersTick stSoundOne).2 = false := by
  refine ⟨rfl, by decide, by decide⟩

/-- Claim C9 as amended: each tick decrements each nonzero timer (timers
never go below 0, the zero timer stays 0), and the tone device fires on a
tick exactly when the sound timer is still nonzero after the decrement,
i.e. when its pre-tick value exceeds 1. -/
theorem C9_timers_tick (st : EmuState) :
    (OnTimersTick st).1.delay_timer = st.delay_timer - 1
      ∧ (OnTimersTick st).1.sound_timer = st.sound_timer - 1
      ∧ ((OnTimersTick st).2 = true ↔ 1 < st.sound_timer) := by
  refine ⟨?_, ?_, ?_⟩ <;> simp [OnTimersTick] <;>
    first
    | omega
    | (split_ifs <;> omega)

/-- Claim C10: for the add opcode 8xy4 with destination x = 0xF, the final
VF is the wrapped 8-bit sum of the old VF and Vy, not the carry flag: the
carry is written first and then overwritten by the sum store. -/
theorem C10_add_to_vf_overwrites_carry (st : EmuState) (y : Nat) :
    (AddVy2Vx st 0xF y).variable_registers 0xF
      = (st.variable_registers 0xF + st.variable_registers y) % 256 := by
  simp [AddVy2Vx, setReg_regs]

end Chip8

namespace Chip8

lemma writeBytes_replicate (k b : Nat) : ∀ (mem : Nat → Nat) (a c : Nat),
    writeBytes mem a (List.replicate k b) c
      = if a ≤ c ∧ c < a + k then b % 256 else mem c := by
  induction k with
  | zero =>
    intro mem a c
    have h : ¬ (a ≤ c ∧ c < a) := by omega
    simp [writeBytes, h]
  | succ n ih =>
    intro mem a c
    rw [List.replicate_succ]
    show writeBytes (fun u => if u = a then b % 256 else mem u) (a + 1) (List.replicate n b) c = _
    rw [ih]
    split_ifs <;> first | rfl | omega

/-- Claim C2: a 3585-byte ROM exceeds MemorySize - ProgramStartAddress
(3584), yet loading succeeds, and the final program byte is written to
address 4096, one past the end of the 4096-byte memory array. -/
theorem C2_oversized_rom_accepted_and_overflows :
    (LoadProgramText (List.replicate 3585 7) zeroState.memory).map
        (fun m => (m 0x200, m 4095, m 4096))
      = .ok (7, 7, 7) := by
  have hlen : (List.replicate 3585 (7 : Nat)).length = 3585 := List.length_replicate 3585 7
  unfold LoadProgramText
  rw [hlen]
  have hcond : ¬ (kChip8MemorySize < 3585) := by decide
  rw [if_neg hcond]
  show Except.ok
      (writeBytes zeroState.memory kChip8ProgramStartAddress (List.replicate 3585 7) 0x200,
       writeBytes zeroState.memory kChip8ProgramStartAddress (List.replicate 3585 7) 4095,
       writeBytes zeroState.memory kChip8ProgramStartAddress (List.replicate 3585 7) 4096) = _
  rw [writeBytes_replicate, writeBytes_replicate, writeBytes_replicate]
  norm_num [kChip8ProgramStartAddress]

lemma shr_four (n : Nat) : n >>> 4 = n / 16 := by
  rw [Nat.shiftRight_eq_div_pow]

lemma and_fifteen (n : Nat) : n &&& 15 = n % 16 := by
  have h : (15 : Nat) = 2 ^ 4 - 1 := by norm_num
  rw [h, Nat.and_pow_two_sub_one_eq_mod]

lemma shiftLeft_or_eq_add (a b k : Nat) (h : b < 2 ^ k) :
    (a <<< k) ||| b = a * 2 ^ k + b := by
  rw [Nat.shiftLeft_eq, Nat.mul_comm a (2 ^ k), ← Nat.mul_add_lt_is_or h a, Nat.mul_comm]

/-- Claim C5: Decode is total and pure (it is a plain function of the two
bytes), and its four nibble fields reconstruct the raw word exactly:
raw = (n1 shl 12) or (n2 shl 8) or (n3 shl 4) or n4, with raw itself the
big-endian combination of the two bytes. -/
theorem C5_decode_total_reconstruct (hi lo : Nat) (hhi : hi < 256) (hlo : lo < 256) :
    (Decode hi lo).raw
        = ((Decode hi lo).first_nibble <<< 12) ||| ((Decode hi lo).second_nibble <<< 8)
            ||| ((Decode hi lo).third_nibble <<< 4) ||| (Decode hi lo).fourth_nibble
      ∧ (Decode hi lo).raw = (hi <<< 8) ||| lo := by
  refine ⟨?_, rfl⟩
  show (hi <<< 8) ||| lo = _
  simp only [Decode]
  rw [shr_four hi, shr_four lo, and_fifteen hi, and_fifteen lo]
  rw [Nat.or_assoc, Nat.or_assoc]
  have h16 : (2 : Nat) ^ 4 = 16 := by norm_num
  have h256 : (2 : Nat) ^ 8 = 256 := by norm_num
  have h4096 : (2 : Nat) ^ 12 = 4096 := by norm_num
  have eCD : ((lo / 16) <<< 4) ||| (lo % 16) = (lo / 16) * 16 + lo % 16 := by
    rw [shiftLeft_or_eq_add (lo / 16) (lo % 16) 4 (by omega), h16]
  rw [eCD]
  have eB : ((hi % 16) <<< 8) ||| ((lo / 16) * 16 + lo % 16)
      = (hi % 16) * 256 + ((lo / 16) * 16 + lo % 16) := by
    rw [shiftLeft_or_eq_add (hi % 16) ((lo / 16) * 16 + lo % 16) 8 (by omega), h256]
  rw [eB]
  have eA : ((hi / 16) <<< 12) ||| ((hi % 16) * 256 + ((lo / 16) * 16 + lo % 16))
      = (hi / 16) * 4096 + ((hi % 16) * 256 + ((lo / 16) * 16 + lo % 16)) := by
    rw [shiftLeft_or_eq_add (hi / 16) ((hi % 16) * 256 + ((lo / 16) * 16 + lo % 16)) 12
      (by omega), h4096]
  rw [eA]
  have eL : (hi <<< 8) ||| lo = hi * 256 + lo := by
    rw [shiftLeft_or_eq_add hi lo 8 (by omega), h256]
  rw [eL]
  omega

/-- Witness for C5_decode_total_reconstruct at the byte pair (0xAB, 0xCD). -/
theorem C5_decode_total_reconstruct_witness :
    (0xAB : Nat) < 256 ∧ (0xCD : Nat) < 256
      ∧ ((Decode 0xAB 0xCD).raw
          = ((Decode 0xAB 0xCD).first_nibble <<< 12) ||| ((Decode 0xAB 0xCD).second_nibble <<< 8)
              ||| ((Decode 0xAB 0xCD).third_nibble <<< 4) ||| (Decode 0xAB 0xCD).fourth_nibble
        ∧ (Decode 0xAB 0xCD).raw = ((0xAB : Nat) <<< 8) ||| 0xCD) :=
  ⟨by decide, by decide, C5_decode_total_reconstruct 0xAB 0xCD (by decide) (by decide)⟩

end Chip8

namespace Chip8

/-- Claim C3 counterexample: instruction 0x0123 matches no defined opcode,
yet Execute succeeds and leaves the state untouched (a silent no-op): the
0x0 switch falls through when the third nibble is not 0xE. -/
theorem C3_0x0123_is_silent_noop :
    Execute env0 zeroState (Decode 0x01 0x23) = .ok zeroState := rfl

set_option maxHeartbeats 1000000 in
/-- Claim C3 as amended: Execute raises the (single) decode error exactly
on the UnknownPattern nibble patterns; every other pattern executes some
operation, in particular 0nnn instructions with third nibble not 0xE
silently perform no operation and 5xyk / 9xyk execute the register skip
for every k, rather than failing. -/
theorem C3_execute_fails_iff_unknown (env : Env) (st : EmuState) (i : Instruction) :
    Execute env st i = Except.error ExecError.unknownOpcode ↔ UnknownPattern i := by
  unfold Execute
  by_cases h0 : i.first_nibble = 0
  · rw [if_pos h0]
    by_cases g03 : i.third_nibble = 14
    · rw [if_pos g03]
      by_cases g04 : i.fourth_nibble = 0
      · rw [if_pos g04]; simp [UnknownPattern] <;> omega
      · rw [if_neg g04]
        by_cases g05 : i.fourth_nibble = 14
        · rw [if_pos g05]; simp [UnknownPattern] <;> omega
        · rw [if_neg g05]; simp [UnknownPattern] <;> omega
    · rw [if_neg g03]; simp [UnknownPattern] <;> omega
  · rw [if_neg h0]
    by_cases h1 : i.first_nibble = 1
    · rw [if_pos h1]
      simp [UnknownPattern] <;> omega
    · rw [if_neg h1]
      by_cases h2 : i.first_nibble = 2
      · rw [if_pos h2]
        simp [UnknownPattern] <;> omega
      · rw [if_neg h2]
        by_cases h3 : i.first_nibble = 3
        · rw [if_pos h3]
          simp [UnknownPattern] <;> omega
        · rw [if_neg h3]
          by_cases h4 : i.first_nibble = 4
          · rw [if_pos h4]
            simp [UnknownPattern] <;> omega
          · rw [if_neg h4]
            by_cases h5 : i.first_nibble = 5
            · rw [if_pos h5]
              simp [UnknownPattern] <;> omega
            · rw [if_neg h5]
              by_cases h6 : i.first_nibble = 6
              · rw [if_pos h6]
                simp [UnknownPattern] <;> omega
              · rw [if_neg h6]
                by_cases h7 : i.first_nibble = 7
                · rw [if_pos h7]
                  simp [UnknownPattern] <;> omega
                · rw [if_neg h7]
                  by_cases h8 : i.first_nibble = 8
                  · rw [if_pos h8]
                    by_cases g0 : i.fourth_nibble = 0
                    · rw [if_pos g0]; simp [UnknownPattern] <;> omega
                    · rw [if_neg g0]
                      by_cases g1 : i.fourth_nibble = 1
                      · rw [if_pos g1]; simp [UnknownPattern] <;> omega
                      · rw [if_neg g1]
                        by_cases g2 : i.fourth_nibble = 2
                        · rw [if_pos g2]; simp [UnknownPattern] <;> omega
                        · rw [if_neg g2]
                          by_cases g3 : i.fourth_nibble = 3
                          · rw [if_pos g3]; simp [UnknownPattern] <;> omega
                          · rw [if_neg g3]
                            by_cases g4 : i.fourth_nibble = 4
                            · rw [if_pos g4]; simp [UnknownPattern] <;> omega
                            · rw [if_neg g4]
                              by_cases g5 : i.fourth_nibble = 5
                              · rw [if_pos g5]; simp [UnknownPattern] <;> omega
                              · rw [if_neg g5]
                                by_cases g6 : i.fourth_nibble = 6
                                · rw [if_pos g6]; simp [UnknownPattern] <;> omega
                                · rw [if_neg g6]
                                  by_cases g7 : i.fourth_nibble = 7
                                  · rw [if_pos g7]; simp [UnknownPattern] <;> omega
                                  · rw [if_neg g7]
                                    by_cases g8 : i.fourth_nibble = 14
                                    · rw [if_pos g8]; simp [UnknownPattern] <;> omega
                                    · rw [if_neg g8]
                                      simp [UnknownPattern] <;> omega
                  · rw [if_neg h8]
                    by_cases h9 : i.first_nibble = 9
                    · rw [if_pos h9]
                      simp [UnknownPattern] <;> omega
                    · rw [if_neg h9]
                      by_cases h10 : i.first_nibble = 10
                      · rw [if_pos h10]
                        simp [UnknownPattern] <;> omega
                      · rw [if_neg h10]
                        by_cases h11 : i.first_nibble = 11
                        · rw [if_pos h11]
                          simp [UnknownPattern] <;> omega
                        · rw [if_neg h11]
                          by_cases h12 : i.first_nibble = 12
                          · rw [if_pos h12]
                            simp [UnknownPattern] <;> omega
                          · rw [if_neg h12]
                            by_cases h13 : i.first_nibble = 13
                            · rw [if_pos h13]
                              simp [UnknownPattern] <;> omega
                            · rw [if_neg h13]
                              by_cases h14 : i.first_nibble = 14
                              · rw [if_pos h14]
                                by_cases gE0 : i.third_nibble = 9 ∧ i.fourth_nibble = 14
                                · rw [if_pos gE0]; simp [UnknownPattern] <;> omega
                                · rw [if_neg gE0]
                                  by_cases gE1 : i.third_nibble = 10 ∧ i.fourth_nibble = 1
                                  · rw [if_pos gE1]; simp [UnknownPattern] <;> omega
                                  · rw [if_neg gE1]; simp [UnknownPattern] <;> omega
                              · rw [if_neg h14]
                                by_cases h15 : i.first_nibble = 15
                                · rw [if_pos h15]
                                  by_cases gF0 : i.third_nibble = 1 ∧ i.fourth_nibble = 14
                                  · rw [if_pos gF0]; simp [UnknownPattern] <;> omega
                                  · rw [if_neg gF0]
                                    by_cases gF1 : i.third_nibble = 0 ∧ i.fourth_nibble = 10
                                    · rw [if_pos gF1]; simp [UnknownPattern] <;> omega
                                    · rw [if_neg gF1]
                                      by_cases gF2 : i.third_nibble = 2 ∧ i.fourth_nibble = 9
                                      · rw [if_pos gF2]; simp [UnknownPattern] <;> omega
                                      · rw [if_neg gF2]
                                        by_cases gF3 : i.third_nibble = 3 ∧ i.fourth_nibble = 3
                                        · rw [if_pos gF3]; simp [UnknownPattern] <;> omega
                                        · rw [if_neg gF3]
                                          by_cases gF4 : i.third_nibble = 5 ∧ i.fourth_nibble = 5
                                          · rw [if_pos gF4]; simp [UnknownPattern] <;> omega
                                          · rw [if_neg gF4]
                                            by_cases gF5 : i.third_nibble = 6 ∧ i.fourth_nibble = 5
                                            · rw [if_pos gF5]; simp [UnknownPattern] <;> omega
                                            · rw [if_neg gF5]
                                              by_cases gF6 : i.third_nibble = 0 ∧ i.fourth_nibble = 7
                                              · rw [if_pos gF6]; simp [UnknownPattern] <;> omega
                                              · rw [if_neg gF6]
                                                by_cases gF7 : i.third_nibble = 1 ∧ i.fourth_nibble = 5
                                                · rw [if_pos gF7]; simp [UnknownPattern] <;> omega
                                                · rw [if_neg gF7]
                                                  by_cases gF8 : i.third_nibble = 1 ∧ i.fourth_nibble = 8
                                                  · rw [if_pos gF8]; simp [UnknownPattern] <;> omega
                                                  · rw [if_neg gF8]
                                                    simp [UnknownPattern] <;> omega
                                · rw [if_neg h15]
                                  simp [UnknownPattern] <;> omega
end Chip8

namespace Chip8

lemma colHit_true_imp (sx pixel c : Nat) : ∀ l : List Nat,
    colHit sx pixel c l = true → ∃ x ∈ l, c = sx + x := by
  intro l
  induction l with
  | nil => simp [colHit]
  | cons x rest ih =>
    simp only [colHit]
    split
    · simp
    · intro h
      rcases Bool.or_eq_true _ _ |>.mp h with h1 | h2
      · exact ⟨x, List.mem_cons_self x rest, by simpa using (Bool.and_eq_true _ _ |>.mp h1).1⟩
      · obtain ⟨x2, hx2, hc⟩ := ih h2
        exact ⟨x2, List.mem_cons_of_mem x hx2, hc⟩

lemma cellHit_true_imp (sy sx idx : Nat) (mem : Nat → Nat) (r c : Nat) : ∀ l : List Nat,
    cellHit sy sx idx mem r c l = true → ∃ y ∈ l, r = sy + y := by
  intro l
  induction l with
  | nil => simp [cellHit]
  | cons y rest ih =>
    simp only [cellHit]
    split
    · simp
    · intro h
      rcases Bool.or_eq_true _ _ |>.mp h with h1 | h2
      · exact ⟨y, List.mem_cons_self y rest, by simpa using (Bool.and_eq_true _ _ |>.mp h1).1⟩
      · obtain ⟨y2, hy2, hr⟩ := ih h2
        exact ⟨y2, List.mem_cons_of_mem y hy2, hr⟩

lemma drawRowBits_fst (ty sx pixel : Nat) : ∀ l : List Nat, l.Nodup →
    ∀ (fb : Nat → Nat → Nat) (vf r c : Nat),
    (drawRowBits ty sx pixel l fb vf).1 r c
      = if r = ty ∧ colHit sx pixel c l = true then fb r c ^^^ 1 else fb r c := by
  intro l
  induction l with
  | nil => intro _ fb vf r c; simp [drawRowBits, colHit]
  | cons x rest ih =>
    intro hnd fb vf r c
    rw [List.nodup_cons] at hnd
    obtain ⟨hx, hrest⟩ := hnd
    by_cases hb : kChip8ScreenWidth ≤ sx + x
    · simp [drawRowBits, colHit, hb]
    · by_cases hbit : pixel &&& (0x80 >>> x) ≠ 0
      · by_cases hr : r = ty
        · subst hr
          by_cases hc : c = sx + x
          · subst hc
            have hcr : colHit sx pixel (sx + x) rest = false := by
              by_contra hne
              obtain ⟨x2, hx2, he⟩ := colHit_true_imp sx pixel (sx + x) rest
                (by simpa using hne)
              have hxx : x2 = x := by omega
              exact hx (hxx ▸ hx2)
            simp [drawRowBits, colHit, hb, hbit, hcr, ih hrest, setCell]
          · simp [drawRowBits, colHit, hb, hbit, hc, ih hrest, setCell]
        · simp [drawRowBits, colHit, hb, hbit, hr, ih hrest, setCell]
      · simp [drawRowBits, colHit, hb, hbit, ih hrest]

lemma rowCollide_congr (sx pixel ty : Nat) : ∀ (l : List Nat) (fb1 fb2 : Nat → Nat → Nat),
    (∀ x ∈ l, fb1 ty (sx + x) = fb2 ty (sx + x)) →
    rowCollide sx pixel ty fb1 l = rowCollide sx pixel ty fb2 l := by
  intro l
  induction l with
  | nil => intro fb1 fb2 _; rfl
  | cons x rest ih =>
    intro fb1 fb2 h
    have hx := h x (List.mem_cons_self x rest)
    have hrest := ih fb1 fb2 (fun x2 hx2 => h x2 (List.mem_cons_of_mem x hx2))
    simp only [rowCollide, hx, hrest]

lemma drawRowBits_snd (ty sx pixel : Nat) : ∀ l : List Nat, l.Nodup →
    ∀ (fb : Nat → Nat → Nat) (vf : Nat),
    (drawRowBits ty sx pixel l fb vf).2
      = if rowCollide sx pixel ty fb l = true then 1 else vf := by
  intro l
  induction l with
  | nil => intro _ fb vf; simp [drawRowBits, rowCollide]
  | cons x rest ih =>
    intro hnd fb vf
    rw [List.nodup_cons] at hnd
    obtain ⟨hx, hrest⟩ := hnd
    by_cases hb : kChip8ScreenWidth ≤ sx + x
    · simp [drawRowBits, rowCollide, hb]
    · by_cases hbit : pixel &&& (0x80 >>> x) ≠ 0
      · have hcong : rowCollide sx pixel ty
            (setCell fb ty (sx + x) (fb ty (sx + x) ^^^ 1)) rest
            = rowCollide sx pixel ty fb rest := by
          apply rowCollide_congr
          intro x2 hx2
          have hne : sx + x2 ≠ sx + x := by
            intro he
            have hxx : x2 = x := by omega
            exact hx (hxx ▸ hx2)
          simp [setCell, hne]
        by_cases hcr : rowCollide sx pixel ty fb rest = true
        · simp [drawRowBits, rowCollide, hb, hbit, ih hrest, hcong, hcr]
        · by_cases hcell : fb ty (sx + x) ≠ 0
          · simp [drawRowBits, rowCollide, hb, hbit, ih hrest, hcong, hcr, hcell]
          · simp [drawRowBits, rowCollide, hb, hbit, ih hrest, hcong, hcr, hcell]
      · simp [drawRowBits, rowCollide, hb, hbit, ih hrest]

lemma spriteCollide_congr (sy sx idx : Nat) (mem : Nat → Nat) :
    ∀ (l : List Nat) (fb1 fb2 : Nat → Nat → Nat),
    (∀ y ∈ l, ∀ c, fb1 (sy + y) c = fb2 (sy + y) c) →
    spriteCollide sy sx idx mem fb1 l = spriteCollide sy sx idx mem fb2 l := by
  intro l
  induction l with
  | nil => intro fb1 fb2 _; rfl
  | cons y rest ih =>
    intro fb1 fb2 h
    have hrow : rowCollide sx (mem (idx + y)) (sy + y) fb1 (List.range 8)
        = rowCollide sx (mem (idx + y)) (sy + y) fb2 (List.range 8) :=
      rowCollide_congr _ _ _ _ fb1 fb2
        (fun x _ => h y (List.mem_cons_self y rest) (sx + x))
    have hrest := ih fb1 fb2 (fun y2 hy2 c => h y2 (List.mem_cons_of_mem y hy2) c)
    simp only [spriteCollide, hrow, hrest]

lemma drawSpriteRows_fst (sy sx idx : Nat) (mem : Nat → Nat) : ∀ l : List Nat, l.Nodup →
    ∀ (fb : Nat → Nat → Nat) (vf r c : Nat),
    (drawSpriteRows sy sx idx mem l fb vf).1 r c
      = if cellHit sy sx idx mem r c l = true then fb r c ^^^ 1 else fb r c := by
  intro l
  induction l with
  | nil => intro _ fb vf r c; simp [drawSpriteRows, cellHit]
  | cons y rest ih =>
    intro hnd fb vf r c
    rw [List.nodup_cons] at hnd
    obtain ⟨hy, hrest⟩ := hnd
    by_cases hb : kChip8ScreenHeight ≤ sy + y
    · simp [drawSpriteRows, cellHit, hb]
    · have hp1 := drawRowBits_fst (sy + y) sx (mem (idx + y)) (List.range 8)
        (List.nodup_range 8) fb vf
      by_cases hr : r = sy + y
      · subst hr
        by_cases hcol : colHit sx (mem (idx + y)) c (List.range 8) = true
        · have hch : cellHit sy sx idx mem (sy + y) c rest = false := by
            by_contra hne
            obtain ⟨y2, hy2, he⟩ := cellHit_true_imp sy sx idx mem (sy + y) c rest
              (by simpa using hne)
            have hyy : y2 = y := by omega
            exact hy (hyy ▸ hy2)
          simp [drawSpriteRows, cellHit, hb, hcol, hch, ih hrest, hp1]
        · simp [drawSpriteRows, cellHit, hb, hcol, ih hrest, hp1]
      · simp [drawSpriteRows, cellHit, hb, hr, ih hrest, hp1]

lemma drawSpriteRows_snd (sy sx idx : Nat) (mem : Nat → Nat) : ∀ l : List Nat, l.Nodup →
    ∀ (fb : Nat → Nat → Nat) (vf : Nat),
    (drawSpriteRows sy sx idx mem l fb vf).2
      = if spriteCollide sy sx idx mem fb l = true then 1 else vf := by
  intro l
  induction l with
  | nil => intro _ fb vf; simp [drawSpriteRows, spriteCollide]
  | cons y rest ih =>
    intro hnd fb vf
    rw [List.nodup_cons] at hnd
    obtain ⟨hy, hrest⟩ := hnd
    by_cases hb : kChip8ScreenHeight ≤ sy + y
    · simp [drawSpriteRows, spriteCollide, hb]
    · have hp1 := drawRowBits_fst (sy + y) sx (mem (idx + y)) (List.range 8)
        (List.nodup_range 8) fb vf
      have hp2 := drawRowBits_snd (sy + y) sx (mem (idx + y)) (List.range 8)
        (List.nodup_range 8) fb vf
      have hcong : spriteCollide sy sx idx mem
          (drawRowBits (sy + y) sx (mem (idx + y)) (List.range 8) fb vf).1 rest
          = spriteCollide sy sx idx mem fb rest := by
        apply spriteCollide_congr
        intro y2 hy2 c
        rw [hp1]
        have hne : ¬ (sy + y2 = sy + y) := by
          intro he
          have hyy : y2 = y := by omega
          exact hy (hyy ▸ hy2)
        simp [hne]
      by_cases hsc : spriteCollide sy sx idx mem fb rest = true
      · simp [drawSpriteRows, spriteCollide, hb, ih hrest, hcong, hsc]
      · by_cases hrc : rowCollide sx (mem (idx + y)) (sy + y) fb (List.range 8) = true
        · simp [drawSpriteRows, spriteCollide, hb, ih hrest, hcong, hsc, hrc, hp2]
        · simp [drawSpriteRows, spriteCollide, hb, ih hrest, hcong, hsc, hrc, hp2]

lemma rowCollide_true_iff (sx pixel ty : Nat) (fb : Nat → Nat → Nat) : ∀ l : List Nat,
    rowCollide sx pixel ty fb l = true
      ↔ ∃ c, colHit sx pixel c l = true ∧ fb ty c ≠ 0 := by
  intro l
  induction l with
  | nil => simp [rowCollide, colHit]
  | cons x rest ih =>
    by_cases hb : kChip8ScreenWidth ≤ sx + x
    · simp [rowCollide, colHit, hb]
    · simp only [rowCollide, colHit, if_neg hb, Bool.or_eq_true, Bool.and_eq_true,
        decide_eq_true_eq, ih]
      constructor
      · rintro (⟨hbit, hcell⟩ | hrest)
        · exact ⟨sx + x, Or.inl ⟨rfl, hbit⟩, hcell⟩
        · obtain ⟨c, hc, hfb⟩ := hrest
          exact ⟨c, Or.inr hc, hfb⟩
      · rintro ⟨c, hc | hc, hfb⟩
        · obtain ⟨hce, hbit⟩ := hc
          subst hce
          exact Or.inl ⟨hbit, hfb⟩
        · exact Or.inr ⟨c, hc, hfb⟩

lemma spriteCollide_true_iff (sy sx idx : Nat) (mem : Nat → Nat) (fb : Nat → Nat → Nat) :
    ∀ l : List Nat,
    spriteCollide sy sx idx mem fb l = true
      ↔ ∃ r c, cellHit sy sx idx mem r c l = true ∧ fb r c ≠ 0 := by
  intro l
  induction l with
  | nil => simp [spriteCollide, cellHit]
  | cons y rest ih =>
    by_cases hb : kChip8ScreenHeight ≤ sy + y
    · simp [spriteCollide, cellHit, hb]
    · simp only [spriteCollide, cellHit, if_neg hb, Bool.or_eq_true, Bool.and_eq_true,
        decide_eq_true_eq, ih, rowCollide_true_iff]
      constructor
      · rintro (⟨c, hcol, hfb⟩ | ⟨r, c, hch, hfb⟩)
        · exact ⟨sy + y, c, Or.inl ⟨rfl, hcol⟩, hfb⟩
        · exact ⟨r, c, Or.inr hch, hfb⟩
      · rintro ⟨r, c, hc | hc, hfb⟩
        · obtain ⟨hre, hcol⟩ := hc
          subst hre
          exact Or.inl ⟨c, hcol, hfb⟩
        · exact Or.inr ⟨r, c, hc, hfb⟩

lemma Display_screen (st : EmuState) (x y n r c : Nat) :
    (Display st x y n).screen r c
      = if cellHit (st.variable_registers y % kChip8ScreenHeight) (st.variable_registers x % kChip8ScreenWidth) st.index_register st.memory
            r c (List.range n) = true
        then st.screen r c ^^^ 1 else st.screen r c :=
  drawSpriteRows_fst (st.variable_registers y % kChip8ScreenHeight)
    (st.variable_registers x % kChip8ScreenWidth) st.index_register st.memory
    (List.range n) (List.nodup_range n) st.screen 0 r c

lemma Display_vf (st : EmuState) (x y n : Nat) :
    (Display st x y n).variable_registers 0xF
      = if spriteCollide (st.variable_registers y % kChip8ScreenHeight) (st.variable_registers x % kChip8ScreenWidth) st.index_register st.memory
            st.screen (List.range n) = true
        then 1 else 0 := by
  have h := drawSpriteRows_snd (st.variable_registers y % kChip8ScreenHeight)
    (st.variable_registers x % kChip8ScreenWidth) st.index_register st.memory
    (List.range n) (List.nodup_range n) st.screen 0
  show (drawSpriteRows (st.variable_registers y % kChip8ScreenHeight)
    (st.variable_registers x % kChip8ScreenWidth) st.index_register st.memory
    (List.range n) st.screen 0).2 % 256 = _
  rw [h]
  split_ifs <;> rfl

lemma Display_regs_of_ne (st : EmuState) (x y n j : Nat) (hj : j ≠ 0xF) :
    (Display st x y n).variable_registers j = st.variable_registers j := by
  simp [Display, setReg, hj]

lemma Display_memory (st : EmuState) (x y n : Nat) : (Display st x y n).memory = st.memory := rfl

lemma Display_index (st : EmuState) (x y n : Nat) :
    (Display st x y n).index_register = st.index_register := rfl

/-- Claim C6 counterexample: drawing the one-pixel sprite at (0,0) twice
on an all-zero framebuffer does restore the framebuffer, but the second
draw finds the pixel set by the first draw and reports a collision, so VF
is 1 after the second draw, not 0 as claimed. -/
theorem C6_second_draw_sets_vf :
    (∀ r c, stSprite.screen r c = 0)
      ∧ (Display (Display stSprite 0 1 1) 0 1 1).screen 0 0 = stSprite.screen 0 0
      ∧ (Display (Display stSprite 0 1 1) 0 1 1).variable_registers 0xF = 1 :=
  ⟨fun _ _ => rfl, rfl, rfl⟩

/-- Claim C6 as amended: when the coordinate registers are not VF (the
draw overwrites VF, which would move the anchor otherwise), executing the
same Dxyn twice restores the pre-draw framebuffer exactly, for every
pre-draw framebuffer; and on an initially all-zero framebuffer, VF after
the second draw is 1 exactly when the first draw set at least one pixel,
and 0 only when the sprite contributed no visible pixel. -/
theorem C6_display_twice (st : EmuState) (x y n : Nat)
    (hx : x ≠ 0xF) (hy : y ≠ 0xF) :
    (Display (Display st x y n) x y n).screen = st.screen
      ∧ ((∀ r c, st.screen r c = 0) →
          ((Display (Display st x y n) x y n).variable_registers 0xF = 1
            ↔ (Display st x y n).screen ≠ st.screen)) := by
  have hrx : (Display st x y n).variable_registers x = st.variable_registers x :=
    Display_regs_of_ne st x y n x hx
  have hry : (Display st x y n).variable_registers y = st.variable_registers y :=
    Display_regs_of_ne st x y n y hy
  have hmem : (Display st x y n).memory = st.memory := rfl
  have hidx : (Display st x y n).index_register = st.index_register := rfl
  have hs1 : ∀ r c, (Display st x y n).screen r c
      = if cellHit (st.variable_registers y % kChip8ScreenHeight) (st.variable_registers x % kChip8ScreenWidth) st.index_register st.memory
            r c (List.range n) = true
        then st.screen r c ^^^ 1 else st.screen r c :=
    fun r c => Display_screen st x y n r c
  have hs2 : ∀ r c, (Display (Display st x y n) x y n).screen r c
      = if cellHit (st.variable_registers y % kChip8ScreenHeight) (st.variable_registers x % kChip8ScreenWidth) st.index_register st.memory
            r c (List.range n) = true
        then (Display st x y n).screen r c ^^^ 1 else (Display st x y n).screen r c := by
    intro r c
    have h := Display_screen (Display st x y n) x y n r c
    rw [hrx, hry, hmem, hidx] at h
    exact h
  refine ⟨?_, ?_⟩
  · funext r c
    rw [hs2 r c, hs1 r c]
    by_cases hhit : cellHit (st.variable_registers y % kChip8ScreenHeight) (st.variable_registers x % kChip8ScreenWidth) st.index_register st.memory
        r c (List.range n) = true
    · simp [hhit, Nat.xor_cancel_right]
    · simp [hhit]
  · intro hz
    have hvf := Display_vf (Display st x y n) x y n
    rw [hrx, hry, hmem, hidx] at hvf
    have hex : spriteCollide (st.variable_registers y % kChip8ScreenHeight) (st.variable_registers x % kChip8ScreenWidth) st.index_register st.memory
          (Display st x y n).screen (List.range n) = true
        ↔ ∃ r c, cellHit (st.variable_registers y % kChip8ScreenHeight) (st.variable_registers x % kChip8ScreenWidth) st.index_register st.memory
            r c (List.range n) = true := by
      rw [spriteCollide_true_iff]
      constructor
      · rintro ⟨r, c, hch, _⟩
        exact ⟨r, c, hch⟩
      · rintro ⟨r, c, hch⟩
        refine ⟨r, c, hch, ?_⟩
        rw [hs1 r c]
        simp [hch, hz r c]
    have hdiff : (Display st x y n).screen ≠ st.screen
        ↔ ∃ r c, cellHit (st.variable_registers y % kChip8ScreenHeight) (st.variable_registers x % kChip8ScreenWidth) st.index_register st.memory
            r c (List.range n) = true := by
      constructor
      · intro hne
        by_contra hno
        apply hne
        funext r c
        rw [hs1 r c]
        have hnc : ¬ cellHit (st.variable_registers y % kChip8ScreenHeight) (st.variable_registers x % kChip8ScreenWidth) st.index_register st.memory
            r c (List.range n) = true := fun hc => hno ⟨r, c, hc⟩
        simp [hnc]
      · rintro ⟨r, c, hch⟩ heq
        have h2 := congrFun (congrFun heq r) c
        rw [hs1 r c, hz r c] at h2
        simp [hch] at h2
    rw [hvf]
    by_cases hsc : spriteCollide (st.variable_registers y % kChip8ScreenHeight) (st.variable_registers x % kChip8ScreenWidth) st.index_register st.memory
        (Display st x y n).screen (List.range n) = true
    · rw [if_pos hsc]
      exact ⟨fun _ => hdiff.mpr (hex.mp hsc), fun _ => rfl⟩
    · rw [if_neg hsc]
      exact ⟨fun h => absurd h (by decide), fun hd => absurd (hex.mpr (hdiff.mp hd)) hsc⟩

/-- Witness for C6_display_twice at the one-pixel sprite state. -/
theorem C6_display_twice_witness :
    (Display (Display stSprite 0 1 1) 0 1 1).screen = stSprite.screen
      ∧ ((∀ r c, stSprite.screen r c = 0) →
          ((Display (Display stSprite 0 1 1) 0 1 1).variable_registers 0xF = 1
            ↔ (Display stSprite 0 1 1).screen ≠ stSprite.screen)) :=
  C6_display_twice stSprite 0 1 1 (by decide) (by decide)

end Chip8
